import Mathlib

/-!
Verification of the mcp-sqlite-server adapter (Go).

The definitions below are a shallow embedding of the Go sources:
  - src/server/handlers.go   (tool dispatch, argument checks, path allowlist)
  - src/database/sqlite.go   (database handle operations, SQL construction)
  - src/unnamed/part_002     (server construction, tool registration)
Strings are modelled by Lean `String`; the Go standard-library string
functions used by the sources are re-implemented below on the character
list of a string (Go iterates bytes, but every character the sources
compare against is ASCII, where bytes and characters coincide).  The SQL
engine and the filesystem are external collaborators: the engine is a
parameter (a state-transition function), the filesystem is a list of
existing file paths.
-/

namespace MCPSqlite

/-- Space test of Go unicode.IsSpace, by code point, restricted to the
Latin-1 range that function special-cases: space, tab, newline, vertical
tab, form feed, carriage return, next line, non-breaking space (the
sources only ever trim ASCII text). -/
def goIsSpace (c : Char) : Bool :=
  c.toNat == 32 || c.toNat == 9 || c.toNat == 10 || c.toNat == 11 ||
    c.toNat == 12 || c.toNat == 13 || c.toNat == 133 || c.toNat == 160

/-- Go strings.ToUpper modelled on ASCII letters: Char.toUpper maps the
code points 97-122 down by 32 and fixes everything else, which is the Go
mapping on the ASCII statements the sources compare against. -/
def goToUpper (s : String) : String := String.mk (s.data.map Char.toUpper)

/-- Go strings.ToLower modelled on ASCII letters, as for goToUpper. -/
def goToLower (s : String) : String := String.mk (s.data.map Char.toLower)

/-- Go strings.TrimSpace: drop leading and trailing space characters. -/
def goTrimSpace (s : String) : String :=
  String.mk (((s.data.dropWhile goIsSpace).reverse.dropWhile goIsSpace).reverse)

/-- Go strings.HasPrefix: the second string is an initial segment of the first. -/
def goStartsWith (s p : String) : Bool := p.data.isPrefixOf s.data

/-- Go strings.TrimSuffix with suffix sfx: remove one occurrence of the
trailing suffix when present, otherwise return the string unchanged. -/
def goTrimSuffix (s sfx : String) : String :=
  if sfx.data.isSuffixOf s.data then
    String.mk (s.data.take (s.data.length - sfx.data.length))
  else s

/-- Go strings.Join with a separator. -/
def goJoin (sep : String) : List String → String
  | [] => ""
  | [x] => x
  | x :: y :: rest => x ++ sep ++ goJoin sep (y :: rest)

/-- Rendering of a Go string slice by fmt %v, used in error messages. -/
def govStrings (xs : List String) : String := "[" ++ goJoin " " xs ++ "]"

/-- First field of Go strings.Split(s, " "): the characters before the
first space. -/
def headSplitSpace (s : String) : String :=
  String.mk (s.data.takeWhile (fun c => !(c == ' ')))

/-- validateDirectory from src/server/handlers.go lines 809-831: a path
equal to "." or "./" is replaced by the first allowed root (an error when
none is configured); afterwards the path, with one trailing separator
removed, must equal one allowed root under the same normalization. -/
def validateDirectory (allowedDirs : List String) (directory : String) : Except String Unit :=
  match (if directory = "." ∨ directory = "./" then
           match allowedDirs with
           | [] => none
           | d :: _ => some d
         else some directory) with
  | none => .error "no allowed directories configured"
  | some dir =>
    let normalizedDir := goTrimSuffix dir "/"
    if allowedDirs.any (fun allowedDir => normalizedDir == goTrimSuffix allowedDir "/") then
      .ok ()
    else
      .error ("directory '" ++ dir ++ "' is not in allowed directories: " ++
        govStrings allowedDirs)

/-- validateFilePath from src/server/handlers.go lines 834-844: the file
path must start with one allowed root (trailing separator removed)
followed by a separator, or merely start with that root textually. -/
def validateFilePath (allowedDirs : List String) (filePath : String) : Except String Unit :=
  if allowedDirs.any (fun allowedDir =>
       let normalizedAllowedDir := goTrimSuffix allowedDir "/"
       goStartsWith filePath (normalizedAllowedDir ++ "/") ||
         goStartsWith filePath normalizedAllowedDir) then
    .ok ()
  else
    .error ("file path '" ++ filePath ++ "' is not in allowed directories: " ++
      govStrings allowedDirs)

/-- Untyped argument values of a tool call (Go map[string]interface
entries after JSON decoding). -/
inductive JVal where
  | str (s : String)
  | boolean (b : Bool)
  | num (n : Int)
  | arr (xs : List JVal)

/-- The argument object of a tool call. -/
abbrev Args := List (String × JVal)

/-- Key lookup in the argument object. -/
def lookupArg (args : Args) (key : String) : Option JVal :=
  match args with
  | [] => none
  | (k, v) :: rest => if k = key then some v else lookupArg rest key

/-- Go form v, ok := args[key].(string): present and of string type. -/
def lookupString (args : Args) (key : String) : Option String :=
  match lookupArg args key with
  | some (.str s) => some s
  | _ => none

/-- Go form v, ok := args[key].(bool): present and of boolean type. -/
def lookupBool (args : Args) (key : String) : Option Bool :=
  match lookupArg args key with
  | some (.boolean b) => some b
  | _ => none

/-- Result of a sql Exec call on the engine: last inserted row id and
affected row count, both reported by the engine. -/
structure ExecResult where
  lastInsertId : Int
  rowsAffected : Int

/-- One result row: column name to decoded text value. -/
abbrev Row := List (String × String)

/-- A live connection (Go struct SQLiteDB of src/database/sqlite.go): the
engine behind it is an external collaborator, so its responses are carried
as functions. -/
structure DBConn where
  queryFn : String → Except String (List Row)
  execFn : String → Except String ExecResult
  connPath : String

/-- GetCurrentDatabasePath from src/database/sqlite.go lines 464-466. -/
def GetCurrentDatabasePath (conn : DBConn) : String := conn.connPath

/-- The server struct of src/unnamed/part_002 lines 34-39. The db field
is a Go pointer that is nil in the unconnected state, modelled by Option. -/
structure SQLiteServer where
  db : Option DBConn
  dbPath : String
  allowedDirs : List String

/-- NewSQLiteServerWithoutDB from src/unnamed/part_002 lines 77-98: no
database handle, empty path, no allowed directories. -/
def NewSQLiteServerWithoutDB : SQLiteServer := ⟨none, "", []⟩

/-- SetAllowedDirs from src/unnamed/part_002 lines 101-103. -/
def SetAllowedDirs (s : SQLiteServer) (dirs : List String) : SQLiteServer :=
  ⟨s.db, s.dbPath, dirs⟩

/-- Outcome of one tool-call handler. panicNilPointer records the Go
runtime panic raised when a handler method dereferences the nil database
pointer: the process crashes and no error value reaches the caller. -/
inductive HandlerResult where
  | success (text : String)
  | failure (msg : String)
  | panicNilPointer
deriving DecidableEq

/-- ExecuteStatement from src/database/sqlite.go lines 93-106: run the
statement, then return the last insert id when the trimmed uppercased
statement starts with INSERT, the affected row count otherwise. -/
def ExecuteStatement (conn : DBConn) (statement : String) : Except String Int :=
  match conn.execFn statement with
  | .error e => .error ("execution failed: " ++ e)
  | .ok result =>
    let upperStmt := goToUpper (goTrimSpace statement)
    if goStartsWith upperStmt "INSERT" then .ok result.lastInsertId
    else .ok result.rowsAffected

/-- handleQuery from src/server/handlers.go lines 64-96. The marshal
parameter stands for json.MarshalIndent. When the server is unconnected
(db pointer nil) the call s.db.ExecuteQuery dereferences nil and panics. -/
def handleQuery (marshal : List Row → String) (s : SQLiteServer) (args : Args) :
    HandlerResult :=
  match lookupString args "query" with
  | none => .failure "query parameter is required"
  | some query =>
    let trimmedQuery := goTrimSpace (goToUpper query)
    if !goStartsWith trimmedQuery "SELECT" && !goStartsWith trimmedQuery "PRAGMA" then
      .failure "only SELECT and PRAGMA queries are allowed with this tool"
    else
      match s.db with
      | none => .panicNilPointer
      | some conn =>
        match conn.queryFn query with
        | .error e => .failure ("query failed: " ++ e)
        | .ok results =>
          .success ("[Database: " ++ GetCurrentDatabasePath conn ++
            "]\nQuery executed successfully. Returned " ++ toString results.length ++
            " rows:\n" ++ marshal results)

/-- handleExecute from src/server/handlers.go lines 99-131. Rejects
statements whose uppercased trimmed text starts with SELECT, then runs
ExecuteStatement; on the unconnected server the nil handle is
dereferenced. The INSERT message branch re-derives the statement kind
from its own trimmedStmt (uppercase before trim, the reverse order of
ExecuteStatement). -/
def handleExecute (s : SQLiteServer) (args : Args) : HandlerResult :=
  match lookupString args "statement" with
  | none => .failure "statement parameter is required"
  | some statement =>
    let trimmedStmt := goTrimSpace (goToUpper statement)
    if goStartsWith trimmedStmt "SELECT" then
      .failure "use the 'query' tool for SELECT statements"
    else
      match s.db with
      | none => .panicNilPointer
      | some conn =>
        match ExecuteStatement conn statement with
        | .error e => .failure ("execution failed: " ++ e)
        | .ok affected =>
          if goStartsWith trimmedStmt "INSERT" then
            .success ("Insert successful. Last insert ID: " ++ toString affected)
          else
            .success ("Statement executed successfully. Rows affected: " ++ toString affected)

/-- handleSwitchDatabase from src/server/handlers.go lines 704-741
together with SwitchDatabase from src/database/sqlite.go lines 439-461.
databaseExists stands for database.DatabaseExists (filesystem plus
engine), openConn for opening and pinging the new connection.  On the
unconnected server s.db.SwitchDatabase runs on a nil receiver and its
first field access dereferences nil.  On open failure the old connection
was already closed but the struct fields are unchanged. -/
def handleSwitchDatabase (databaseExists : String → Bool)
    (openConn : String → Except String DBConn) (s : SQLiteServer) (args : Args) :
    SQLiteServer × HandlerResult :=
  match lookupString args "db_path" with
  | none => (s, .failure "db_path parameter is required")
  | some dbPath =>
    match validateFilePath s.allowedDirs dbPath with
    | .error e => (s, .failure e)
    | .ok _ =>
      if !databaseExists dbPath then
        (s, .failure ("database file does not exist or is not a valid SQLite database: " ++ dbPath))
      else
        match s.db with
        | none => (s, .panicNilPointer)
        | some _ =>
          match openConn dbPath with
          | .error e => (s, .failure ("failed to switch database: " ++ e))
          | .ok conn => (⟨some conn, dbPath, s.allowedDirs⟩,
              .success ("Successfully switched to database: " ++ dbPath))

/-- Transaction from src/database/sqlite.go lines 170-189: begin a
transaction, run the body on the working state; an error rolls the state
back to the snapshot taken at begin and is returned; otherwise the new
state is committed.  The snapshot/rollback semantics is the engine's
documented transaction contract (the engine is out of scope). -/
def Transaction {σ α : Type} (fn : σ → Except String (σ × α)) (st : σ) :
    σ × Except String α :=
  match fn st with
  | .error e => (st, .error e)
  | .ok (st1, a) => (st1, .ok a)

/-- The validation loop of handleTransaction, src/server/handlers.go lines
263-275: each element must be a string and must not start with SELECT
after uppercasing and trimming; errors name the 1-based index. -/
def validateStatements : List JVal → Nat → Except String (List String)
  | [], _ => .ok []
  | .str stmt :: rest, i =>
    let trimmedStmt := goTrimSpace (goToUpper stmt)
    if goStartsWith trimmedStmt "SELECT" then
      .error ("statement " ++ toString (i + 1) ++
        ": SELECT queries are not allowed in transactions, use the 'query' tool instead")
    else
      match validateStatements rest (i + 1) with
      | .error e => .error e
      | .ok tail => .ok (stmt :: tail)
  | _ :: _, i => .error ("statement " ++ toString (i + 1) ++ " must be a string")

/-- The transaction body closure of handleTransaction, lines 280-293: run
the statements in order on the transaction state, accumulating the
executed-statement count and the total affected rows; a failing statement
stops with an error naming its 1-based index and leading keyword.  The
engine semantics execStmt is a parameter: from a state, a statement
produces a new state and an affected count, or an engine error. -/
def transactionBody {σ : Type} (execStmt : σ → String → Except String (σ × Int)) :
    σ → List String → Nat → Nat → Int → Except String (σ × Nat × Int)
  | st, [], _, executed, total => .ok (st, executed, total)
  | st, stmt :: rest, i, executed, total =>
    match execStmt st stmt with
    | .error e =>
      .error ("statement " ++ toString (i + 1) ++ " (" ++ headSplitSpace stmt ++ "): " ++ e)
    | .ok (st1, affected) =>
      transactionBody execStmt st1 rest (i + 1) (executed + 1) (total + affected)

/-- Success message of handleTransaction, lines 299-304. -/
def transactionMessage (executedStatements : Nat) (totalAffected : Int) : String :=
  if executedStatements = 1 then
    "Transaction completed successfully. 1 statement executed. Rows affected: " ++
      toString totalAffected
  else
    "Transaction completed successfully. " ++ toString executedStatements ++
      " statements executed. Total rows affected: " ++ toString totalAffected

/-- handleTransaction from src/server/handlers.go lines 248-314, over the
parameterized engine semantics; returns the database state after the call
together with the handler outcome. -/
def handleTransaction {σ : Type} (execStmt : σ → String → Except String (σ × Int))
    (st : σ) (args : Args) : σ × HandlerResult :=
  match lookupArg args "statements" with
  | none => (st, .failure "statements parameter is required")
  | some v =>
    match v with
    | .arr statementsArray =>
      if statementsArray.length = 0 then
        (st, .failure "at least one statement is required")
      else
        match validateStatements statementsArray 0 with
        | .error e => (st, .failure e)
        | .ok statements =>
          match Transaction (fun st0 => transactionBody execStmt st0 statements 0 0 0) st with
          | (st1, .error e) => (st1, .failure ("transaction failed: " ++ e))
          | (st1, .ok (executedStatements, totalAffected)) =>
            (st1, .success (transactionMessage executedStatements totalAffected))
    | _ => (st, .failure "statements must be an array")

/-- DeleteDatabase from src/database/sqlite.go lines 517-529 over the
filesystem modelled as the list of existing file paths: stat the path
(membership), then remove it; a missing file is an error. -/
def DeleteDatabase (fs : List String) (dbPath : String) :
    List String × Except String Unit :=
  if dbPath ∈ fs then (fs.erase dbPath, .ok ())
  else (fs, .error ("database file does not exist: " ++ dbPath))

/-- handleDeleteDatabase from src/server/handlers.go lines 875-914: checks
db_path presence, then the confirm flag (the Go code combines absence and
false in one guard), then the allowlist, then exact string equality with
the active path, and only then deletes.  Returns the filesystem after the
call and the handler outcome. -/
def handleDeleteDatabase (s : SQLiteServer) (fs : List String) (args : Args) :
    List String × HandlerResult :=
  match lookupString args "db_path" with
  | none => (fs, .failure "db_path parameter is required")
  | some dbPath =>
    match lookupBool args "confirm" with
    | none => (fs, .failure "confirm parameter must be true to delete the database")
    | some confirm =>
      if !confirm then
        (fs, .failure "confirm parameter must be true to delete the database")
      else
        match validateFilePath s.allowedDirs dbPath with
        | .error e => (fs, .failure e)
        | .ok _ =>
          if dbPath = s.dbPath then
            (fs, .failure "cannot delete the currently connected database. Please switch to another database first")
          else
            match DeleteDatabase fs dbPath with
            | (fs1, .ok _) => (fs1, .success ("Database successfully deleted: " ++ dbPath))
            | (fs1, .error e) => (fs1, .failure ("failed to delete database: " ++ e))

/-- Go filepath.Join(dir, name) on the inputs exercised here: Join also
cleans the result, and on paths without dot segments or duplicate
separators Clean is the identity, so the join is modelled as
concatenation with one separator. -/
def filepathJoin (dir name : String) : String := dir ++ "/" ++ name

/-- The collision loop of handleCreateDatabase, src/server/handlers.go
lines 644-653: try base_1.db, base_2.db, ... and return the first path
that does not exist.  The Go loop is unbounded; the model carries fuel
and the claims quantify over calls on which the search returned a path. -/
def findFreePath (fs : List String) (directory base : String) : Nat → Nat → Option String
  | _, 0 => none
  | i, fuel + 1 =>
    let testPath := filepathJoin directory (base ++ "_" ++ toString i ++ ".db")
    if testPath ∈ fs then findFreePath fs directory base (i + 1) fuel
    else some testPath

/-- The path-selection step of handleCreateDatabase, lines 640-654: join
directory and filename; when that path already exists, strip the .db
suffix and search for the first free numbered variant. -/
def resolveCreatePath (fs : List String) (directory filename : String) : Option String :=
  let dbPath := filepathJoin directory filename
  if dbPath ∈ fs then
    let base := goTrimSuffix filename ".db"
    findFreePath fs directory base 1 (fs.length + 1)
  else some dbPath

/-- IndexColumn from src/database/sqlite.go lines 286-289. -/
structure IndexColumn where
  Name : String
  SortOrder : String

/-- IndexOptions from src/database/sqlite.go lines 276-283. -/
structure IndexOptions where
  IndexName : String
  TableName : String
  Columns : List IndexColumn
  Unique : Bool
  IfNotExists : Bool
  WhereClause : String

/-- The statement built by CreateIndex, src/database/sqlite.go lines
199-221 (the engine execution of the statement is external, so the
construction is modelled separately from the call). -/
def CreateIndexSQL (indexName tableName : String) (columns : List String)
    (unique ifNotExists : Bool) : Except String String :=
  if columns.length = 0 then .error "at least one column must be specified"
  else
    let existsClause := if ifNotExists then "IF NOT EXISTS " else ""
    let uniqueClause := if unique then "UNIQUE " else ""
    let columnsStr := goJoin ", " columns
    .ok ("CREATE " ++ uniqueClause ++ "INDEX " ++ existsClause ++ indexName ++ " ON " ++
      tableName ++ " (" ++ columnsStr ++ ")")

/-- The statement built by CreateIndexWithOptions, src/database/sqlite.go
lines 224-273: space-joined parts, with per-column sort order and an
optional WHERE clause. -/
def CreateIndexWithOptionsSQL (options : IndexOptions) : Except String String :=
  if options.IndexName = "" then .error "index name is required"
  else if options.TableName = "" then .error "table name is required"
  else if options.Columns.length = 0 then .error "at least one column must be specified"
  else
    let columnSpecs := options.Columns.map (fun col =>
      if col.SortOrder ≠ "" then col.Name ++ " " ++ goToUpper col.SortOrder else col.Name)
    let parts := ["CREATE"] ++ (if options.Unique then ["UNIQUE"] else []) ++ ["INDEX"] ++
      (if options.IfNotExists then ["IF NOT EXISTS"] else []) ++
      [options.IndexName, "ON", options.TableName] ++
      ["(" ++ goJoin ", " columnSpecs ++ ")"] ++
      (if options.WhereClause ≠ "" then ["WHERE", options.WhereClause] else [])
    .ok (goJoin " " parts)

/-- Go strings.ReplaceAll for a one-character pattern and replacement, the
only form generateFilenameFromPurpose uses: a character map. -/
def goReplaceAllChar (s : String) (oldc newc : Char) : String :=
  String.mk (s.data.map (fun c => if c = oldc then newc else c))

/-- The character filter of generateFilenameFromPurpose, lines 855-859:
keep lowercase ASCII letters, digits and underscore. -/
def isSlugChar (c : Char) : Bool :=
  ('a' ≤ c && c ≤ 'z') || ('0' ≤ c && c ≤ '9') || c == '_'

/-- The base-name computation of generateFilenameFromPurpose,
src/server/handlers.go lines 847-869: lowercase, spaces and hyphens to
underscores, strip the other characters, fall back to "database" when
empty, and cut to 20 characters (the Go byte-slice cut equals the
character cut because the filter leaves only ASCII). -/
def slugFromPurpose (purpose : String) : String :=
  let filtered := String.mk
    ((goReplaceAllChar (goReplaceAllChar (goToLower purpose) ' ' '_') '-' '_').data.filter
      isSlugChar)
  let filename := if filtered = "" then "database" else filtered
  if filename.length > 20 then String.mk (filename.data.take 20) else filename

/-- generateFilenameFromPurpose, lines 847-872: the slug, an underscore,
time.Now().Unix() mod 10000, and the .db extension.  The Unix timestamp
is non-negative, so the Go remainder is the Nat remainder. -/
def generateFilenameFromPurpose (now : Nat) (purpose : String) : String :=
  slugFromPurpose purpose ++ "_" ++ toString (now % 10000) ++ ".db"

/-- C4: validateDirectory succeeds exactly when the path, after removing a
single trailing separator, equals some allowed root under the same
normalization, or the path is "." or "./" and the allowed set is
non-empty. -/
theorem validateDirectory_ok_iff (R : List String) (p : String) :
    validateDirectory R p = .ok () ↔
      (((p = "." ∨ p = "./") ∧ 0 < R.length) ∨
        goTrimSuffix p "/" ∈ R.map (fun d => goTrimSuffix d "/")) := by
  by_cases hdot : p = "." ∨ p = "./"
  · cases R with
    | nil =>
      simp only [validateDirectory, if_pos hdot]
      constructor
      · intro h
        exact absurd h (by simp)
      · rintro (⟨_, h⟩ | h)
        · exact absurd h (by simp)
        · exact absurd h (by simp)
    | cons d R' =>
      simp only [validateDirectory, if_pos hdot]
      have hany : (d :: R').any
          (fun allowedDir => goTrimSuffix d "/" == goTrimSuffix allowedDir "/") = true := by
        simp only [List.any_eq_true]
        exact ⟨d, List.mem_cons_self d R', by simp⟩
      simp only [hany, if_true]
      constructor
      · intro _
        exact Or.inl ⟨hdot, by simp⟩
      · intro _
        trivial
  · simp only [validateDirectory, if_neg hdot]
    have hfalse : ¬((p = "." ∨ p = "./") ∧ 0 < R.length) := fun h => hdot h.1
    constructor
    · intro h
      refine Or.inr ?_
      by_cases hany : R.any (fun allowedDir => goTrimSuffix p "/" == goTrimSuffix allowedDir "/") = true
      · simp only [List.any_eq_true, beq_iff_eq] at hany
        obtain ⟨d, hd, hEq⟩ := hany
        exact List.mem_map.mpr ⟨d, hd, hEq.symm⟩
      · simp only [Bool.not_eq_true] at hany
        simp only [hany, Bool.false_eq_true, if_false] at h
        exact absurd h (by simp)
    · rintro (h | h)
      · exact absurd h hfalse
      · obtain ⟨d, hd, hEq⟩ := List.mem_map.mp h
        have hany : R.any (fun allowedDir => goTrimSuffix p "/" == goTrimSuffix allowedDir "/") = true := by
          simp only [List.any_eq_true, beq_iff_eq]
          exact ⟨d, hd, hEq.symm⟩
        simp only [hany, if_true]

/-- C4 witness: evaluating the characterization on a concrete allowed set
and path. -/
theorem validateDirectory_ok_iff_witness :
    validateDirectory ["/data"] "/data/" = .ok () :=
  (validateDirectory_ok_iff ["/data"] "/data/").mpr (Or.inr (by decide))

/-- C5: validateFilePath succeeds exactly when the path starts with some
allowed root (one trailing separator removed) followed by a separator, or
is textually prefixed by that normalized root. -/
theorem validateFilePath_ok_iff (R : List String) (p : String) :
    validateFilePath R p = .ok () ↔
      ∃ d ∈ R, (goStartsWith p (goTrimSuffix d "/" ++ "/") = true ∨
        goStartsWith p (goTrimSuffix d "/") = true) := by
  simp only [validateFilePath]
  by_cases hany : R.any (fun allowedDir =>
      let n := goTrimSuffix allowedDir "/"
      goStartsWith p (n ++ "/") || goStartsWith p n) = true
  · simp only [hany, if_true]
    simp only [List.any_eq_true, Bool.or_eq_true] at hany
    exact ⟨fun _ => hany, fun _ => trivial⟩
  · simp only [Bool.not_eq_true] at hany
    simp only [hany, Bool.false_eq_true, if_false]
    constructor
    · intro h
      exact absurd h (by simp)
    · intro h
      have : R.any (fun allowedDir =>
          let n := goTrimSuffix allowedDir "/"
          goStartsWith p (n ++ "/") || goStartsWith p n) = true := by
        simp only [List.any_eq_true, Bool.or_eq_true]
        exact h
      rw [this] at hany
      exact absurd hany (by simp)

/-- C5 witness: the characterization evaluated on a concrete allowed set,
including the intentionally loose textual-only match of the second rule. -/
theorem validateFilePath_ok_iff_witness :
    validateFilePath ["/data"] "/database.db" = .ok () :=
  (validateFilePath_ok_iff ["/data"] "/database.db").mpr
    ⟨"/data", by decide, Or.inr (by decide)⟩

/-- Uppercasing a character does not change whether it is a space: the
lowercase-letter range is disjoint from the space code points, and its
image, the uppercase range, is as well. -/
theorem goIsSpace_toUpper (c : Char) : goIsSpace c.toUpper = goIsSpace c := by
  simp only [Char.toUpper]
  split
  next h =>
    obtain ⟨h1, h2⟩ := h
    unfold goIsSpace
    obtain ⟨n, hn⟩ : ∃ n, c.toNat = n := ⟨_, rfl⟩
    rw [hn] at h1 h2 ⊢
    interval_cases n <;> decide
  next => rfl

/-- Trimming spaces commutes with uppercasing. -/
theorem goTrimSpace_goToUpper (s : String) :
    goTrimSpace (goToUpper s) = goToUpper (goTrimSpace s) := by
  have hsp : (goIsSpace ∘ Char.toUpper) = goIsSpace := funext goIsSpace_toUpper
  simp only [goTrimSpace, goToUpper]
  congr 1
  rw [List.dropWhile_map, hsp, ← List.map_reverse, List.dropWhile_map, hsp,
    ← List.map_reverse]

/-- C1 evidence (code bug): on a server started without a database, the
query, execute and switch_database tools all reach the nil database
pointer and panic, crashing the process; no "no database selected" error
exists anywhere in the sources. -/
theorem unconnected_tools_panic :
    handleQuery (fun _ => "") NewSQLiteServerWithoutDB
        [("query", .str "SELECT 1")] = .panicNilPointer
    ∧ handleExecute NewSQLiteServerWithoutDB
        [("statement", .str "DELETE FROM t")] = .panicNilPointer
    ∧ (handleSwitchDatabase (fun _ => true) (fun _ => .error "")
        (SetAllowedDirs NewSQLiteServerWithoutDB ["/data"])
        [("db_path", .str "/data/app.db")]).2 = .panicNilPointer :=
  ⟨rfl, rfl, rfl⟩

/-- C7: executing a statement reports the last inserted row id exactly
when the statement, whitespace-trimmed and uppercased, starts with
INSERT, and the affected-row count otherwise. -/
theorem execute_returns_id_iff_insert
    (conn : DBConn) (s : SQLiteServer) (args : Args) (statement : String) (res : ExecResult)
    (hdb : s.db = some conn)
    (harg : lookupString args "statement" = some statement)
    (hnotsel : goStartsWith (goTrimSpace (goToUpper statement)) "SELECT" = false)
    (hexec : conn.execFn statement = .ok res) :
    handleExecute s args =
      if goStartsWith (goToUpper (goTrimSpace statement)) "INSERT" then
        .success ("Insert successful. Last insert ID: " ++ toString res.lastInsertId)
      else
        .success ("Statement executed successfully. Rows affected: " ++ toString res.rowsAffected) := by
  have hcomm : goTrimSpace (goToUpper statement) = goToUpper (goTrimSpace statement) :=
    goTrimSpace_goToUpper statement
  rw [hcomm] at hnotsel
  simp only [handleExecute, harg, hcomm, hnotsel, Bool.false_eq_true, if_false, hdb,
    ExecuteStatement, hexec]
  by_cases hins : goStartsWith (goToUpper (goTrimSpace statement)) "INSERT" = true
  · simp only [hins, if_true]
  · simp only [Bool.not_eq_true] at hins
    simp only [hins, Bool.false_eq_true, if_false]

/-- C7 witness: a concrete INSERT statement reports the engine's last
insert id, not the row count. -/
theorem execute_returns_id_iff_insert_witness :
    handleExecute
        ⟨some ⟨fun _ => .ok [], fun _ => .ok ⟨7, 3⟩, "/d/a.db"⟩, "/d/a.db", ["/d"]⟩
        [("statement", .str "  insert INTO t (id) VALUES (1)")] =
      .success "Insert successful. Last insert ID: 7" := by
  have h := execute_returns_id_iff_insert
    ⟨fun _ => .ok [], fun _ => .ok ⟨7, 3⟩, "/d/a.db"⟩
    ⟨some ⟨fun _ => .ok [], fun _ => .ok ⟨7, 3⟩, "/d/a.db"⟩, "/d/a.db", ["/d"]⟩
    [("statement", .str "  insert INTO t (id) VALUES (1)")]
    "  insert INTO t (id) VALUES (1)" ⟨7, 3⟩ rfl rfl (by decide) rfl
  simpa using h

/-- On success the transaction body has executed every statement: the
reported count grows by exactly the length of the statement list. -/
theorem transactionBody_ok_count {σ : Type}
    (execStmt : σ → String → Except String (σ × Int)) :
    ∀ (S : List String) (st st1 : σ) (i executed e1 : Nat) (total t1 : Int),
      transactionBody execStmt st S i executed total = .ok (st1, e1, t1) →
      e1 = executed + S.length := by
  intro S
  induction S with
  | nil =>
    intro st st1 i executed e1 total t1 h
    simp only [transactionBody, Except.ok.injEq, Prod.mk.injEq] at h
    obtain ⟨-, h2, -⟩ := h
    simp [← h2]
  | cons stmt rest ih =>
    intro st st1 i executed e1 total t1 h
    simp only [transactionBody] at h
    cases hexec : execStmt st stmt with
    | error e => rw [hexec] at h; exact absurd h (by simp)
    | ok r =>
      obtain ⟨st2, affected⟩ := r
      rw [hexec] at h
      have := ih st2 st1 (i + 1) (executed + 1) e1 (total + affected) t1 h
      simp only [List.length_cons]
      omega

/-- C2: a transaction call either executes every statement of the
extracted list S in order, ends in the resulting state and reports
exactly S.length executed statements, or it returns an error and the
database state is the state from before the call. -/
theorem transaction_all_or_nothing {σ : Type}
    (execStmt : σ → String → Except String (σ × Int)) (st : σ) (args : Args) :
    (∃ raw S total,
        lookupArg args "statements" = some (JVal.arr raw) ∧
        validateStatements raw 0 = .ok S ∧
        transactionBody execStmt st S 0 0 0 =
          .ok ((handleTransaction execStmt st args).1, S.length, total) ∧
        (handleTransaction execStmt st args).2 =
          .success (transactionMessage S.length total))
    ∨ ((handleTransaction execStmt st args).1 = st ∧
        ∃ m, (handleTransaction execStmt st args).2 = .failure m) := by
  cases hlk : lookupArg args "statements" with
  | none =>
    refine Or.inr ?_
    simp [handleTransaction, hlk]
  | some v =>
    cases v with
    | str s =>
      refine Or.inr ?_
      simp [handleTransaction, hlk]
    | boolean b =>
      refine Or.inr ?_
      simp [handleTransaction, hlk]
    | num n =>
      refine Or.inr ?_
      simp [handleTransaction, hlk]
    | arr raw =>
      by_cases hlen : raw.length = 0
      · refine Or.inr ?_
        simp [handleTransaction, hlk, hlen]
      · cases hval : validateStatements raw 0 with
        | error e =>
          refine Or.inr ?_
          simp [handleTransaction, hlk, hlen, hval]
        | ok S =>
          cases htx : transactionBody execStmt st S 0 0 0 with
          | error e =>
            refine Or.inr ?_
            simp [handleTransaction, hlk, hlen, hval, Transaction, htx]
          | ok r =>
            obtain ⟨st1, e1, t1⟩ := r
            have he : e1 = 0 + S.length :=
              transactionBody_ok_count execStmt S st st1 0 0 e1 0 t1 htx
            simp only [Nat.zero_add] at he
            subst he
            refine Or.inl ⟨raw, S, t1, rfl, hval, ?_, ?_⟩
            · simp [handleTransaction, hlk, hlen, hval, Transaction, htx]
            · simp [handleTransaction, hlk, hlen, hval, Transaction, htx]

/-- C3: the delete_database tool touches the filesystem only when confirm
is the boolean true, the path passes the allowlist and the path differs
from the active database path; a call naming the active path always fails
with the filesystem unchanged, and with the conflict message when confirm
and the allowlist pass; a call without confirm=true fails with the
filesystem unchanged. -/
theorem delete_database_guarded (s : SQLiteServer) (fs : List String) (args : Args) :
    ((handleDeleteDatabase s fs args).1 ≠ fs →
      ∃ p, lookupString args "db_path" = some p ∧
        lookupBool args "confirm" = some true ∧
        validateFilePath s.allowedDirs p = .ok () ∧
        p ≠ s.dbPath)
    ∧ (lookupString args "db_path" = some s.dbPath →
        (handleDeleteDatabase s fs args).1 = fs ∧
        ∃ m, (handleDeleteDatabase s fs args).2 = .failure m ∧
          (lookupBool args "confirm" = some true →
            validateFilePath s.allowedDirs s.dbPath = .ok () →
            m = "cannot delete the currently connected database. Please switch to another database first"))
    ∧ (lookupBool args "confirm" ≠ some true →
        (handleDeleteDatabase s fs args).1 = fs ∧
        ∃ m, (handleDeleteDatabase s fs args).2 = .failure m) := by
  cases hp : lookupString args "db_path" with
  | none =>
    have hr : handleDeleteDatabase s fs args = (fs, .failure "db_path parameter is required") := by
      simp [handleDeleteDatabase, hp]
    refine ⟨fun h => absurd (by rw [hr]) h, fun h => absurd h (by simp), fun _ => ?_⟩
    rw [hr]
    exact ⟨rfl, _, rfl⟩
  | some p =>
    cases hc : lookupBool args "confirm" with
    | none =>
      have hr : handleDeleteDatabase s fs args =
          (fs, .failure "confirm parameter must be true to delete the database") := by
        simp [handleDeleteDatabase, hp, hc]
      refine ⟨fun h => absurd (by rw [hr]) h, fun _ => ?_, fun _ => ?_⟩
      · rw [hr]
        exact ⟨rfl, _, rfl, fun h => absurd h (by simp)⟩
      · rw [hr]
        exact ⟨rfl, _, rfl⟩
    | some b =>
      cases b with
      | false =>
        have hr : handleDeleteDatabase s fs args =
            (fs, .failure "confirm parameter must be true to delete the database") := by
          simp [handleDeleteDatabase, hp, hc]
        refine ⟨fun h => absurd (by rw [hr]) h, fun _ => ?_, fun _ => ?_⟩
        · rw [hr]
          exact ⟨rfl, _, rfl, fun h => absurd h (by simp)⟩
        · rw [hr]
          exact ⟨rfl, _, rfl⟩
      | true =>
        cases hv : validateFilePath s.allowedDirs p with
        | error e =>
          have hr : handleDeleteDatabase s fs args = (fs, .failure e) := by
            simp [handleDeleteDatabase, hp, hc, hv]
          refine ⟨fun h => absurd (by rw [hr]) h, fun hps => ?_, fun h => absurd rfl h⟩
          have hpe : p = s.dbPath := by injection hps
          subst hpe
          rw [hr]
          exact ⟨rfl, e, rfl, fun _ hvok => absurd (hv ▸ hvok) (by simp)⟩
        | ok u =>
          cases u
          by_cases hpe : p = s.dbPath
          · subst hpe
            have hr : handleDeleteDatabase s fs args =
                (fs, .failure "cannot delete the currently connected database. Please switch to another database first") := by
              simp [handleDeleteDatabase, hp, hc, hv]
            refine ⟨fun h => absurd (by rw [hr]) h, fun _ => ?_, fun h => absurd rfl h⟩
            rw [hr]
            exact ⟨rfl, _, rfl, fun _ _ => rfl⟩
          · by_cases hmem : p ∈ fs
            · have hr : handleDeleteDatabase s fs args =
                  (fs.erase p, .success ("Database successfully deleted: " ++ p)) := by
                simp [handleDeleteDatabase, hp, hc, hv, hpe, DeleteDatabase, hmem]
              refine ⟨fun _ => ⟨p, rfl, rfl, hv, hpe⟩, fun hps => ?_, fun h => absurd rfl h⟩
              exact absurd (by injection hps) hpe
            · have hr : handleDeleteDatabase s fs args =
                  (fs, .failure ("failed to delete database: " ++
                    ("database file does not exist: " ++ p))) := by
                simp [handleDeleteDatabase, hp, hc, hv, hpe, DeleteDatabase, hmem]
              refine ⟨fun h => absurd (by rw [hr]) h, fun hps => ?_, fun h => absurd rfl h⟩
              exact absurd (by injection hps) hpe

/-- C3 witness: deleting the active database itself, with confirm set and
the path allowlisted, fails with the conflict message and leaves the
filesystem unchanged. -/
theorem delete_database_guarded_witness :
    (handleDeleteDatabase ⟨none, "/data/x.db", ["/data"]⟩ ["/data/x.db"]
        [("db_path", .str "/data/x.db"), ("confirm", .boolean true)]).1 = ["/data/x.db"]
    ∧ ∃ m, (handleDeleteDatabase ⟨none, "/data/x.db", ["/data"]⟩ ["/data/x.db"]
        [("db_path", .str "/data/x.db"), ("confirm", .boolean true)]).2 = .failure m
    ∧ (lookupBool [("db_path", JVal.str "/data/x.db"), ("confirm", JVal.boolean true)]
          "confirm" = some true →
        validateFilePath ["/data"] "/data/x.db" = .ok () →
        m = "cannot delete the currently connected database. Please switch to another database first") :=
  (delete_database_guarded ⟨none, "/data/x.db", ["/data"]⟩ ["/data/x.db"]
    [("db_path", .str "/data/x.db"), ("confirm", .boolean true)]).2.1 rfl

/-- C8: the active-database refusal compares raw path strings for exact
equality.  The argument path /data//x.db names the same file as the
active /data/x.db under POSIX path resolution, but differs textually, so
the refusal does not fire: the call proceeds past every guard and deletes
the file of the currently open database. -/
theorem delete_database_alias_bypasses_guard :
    handleDeleteDatabase ⟨none, "/data/x.db", ["/data"]⟩ ["/data/x.db", "/data//x.db"]
        [("db_path", .str "/data//x.db"), ("confirm", .boolean true)] =
      (["/data/x.db"], .success "Database successfully deleted: /data//x.db")
    ∧ (("/data//x.db" == "/data/x.db") = false) := ⟨rfl, rfl⟩

/-- The collision loop only ever returns a path that does not exist. -/
theorem findFreePath_not_mem (fs : List String) (directory base : String) :
    ∀ (fuel i : Nat) (q : String),
      findFreePath fs directory base i fuel = some q → q ∉ fs := by
  intro fuel
  induction fuel with
  | zero =>
    intro i q h
    exact absurd h (by simp [findFreePath])
  | succ fuel ih =>
    intro i q h
    simp only [findFreePath] at h
    by_cases hmem : filepathJoin directory (base ++ "_" ++ toString i ++ ".db") ∈ fs
    · rw [if_pos hmem] at h
      exact ih (i + 1) q h
    · rw [if_neg hmem] at h
      obtain rfl : _ = q := Option.some.inj h
      exact hmem

/-- The selected creation path never names an existing file. -/
theorem resolveCreatePath_not_mem (fs : List String) (directory filename q : String)
    (h : resolveCreatePath fs directory filename = some q) : q ∉ fs := by
  unfold resolveCreatePath at h
  by_cases hmem : filepathJoin directory filename ∈ fs
  · rw [if_pos hmem] at h
    exact findFreePath_not_mem fs directory (goTrimSuffix filename ".db") _ 1 q h
  · rw [if_neg hmem] at h
    obtain rfl : _ = q := Option.some.inj h
    exact hmem

/-- C6: create_database never selects an existing file, so it never
overwrites one; a second call with the same directory and filename, after
the first created its file, selects a path different from the first and
again different from every pre-existing file, leaving the first file
untouched. -/
theorem create_database_no_overwrite (fs : List String) (directory filename q q' : String)
    (h1 : resolveCreatePath fs directory filename = some q)
    (h2 : resolveCreatePath (q :: fs) directory filename = some q') :
    q ∉ fs ∧ q' ∉ fs ∧ q' ≠ q := by
  have hq : q ∉ fs := resolveCreatePath_not_mem fs directory filename q h1
  have hq' : q' ∉ q :: fs := resolveCreatePath_not_mem (q :: fs) directory filename q' h2
  refine ⟨hq, fun hm => hq' (List.mem_cons_of_mem q hm), fun he => hq' ?_⟩
  rw [he]
  exact List.mem_cons_self q fs

/-- C6 witness: with a.db present, the first call selects a_1.db; with
that file then present as well, the second call selects a_2.db. -/
theorem create_database_no_overwrite_witness :
    ("/d/a_1.db" ∉ ["/d/a.db"] ∧ "/d/a_2.db" ∉ ["/d/a.db"] ∧ "/d/a_2.db" ≠ "/d/a_1.db") :=
  create_database_no_overwrite ["/d/a.db"] "/d" "a.db" "/d/a_1.db" "/d/a_2.db"
    (by decide) (by decide)

/-- C9: on a single column with no sort order and no WHERE clause, the
inputs on which the dispatcher may pick either form, the simple and the
extended builders produce the same CREATE INDEX statement, for every
index name, table name, unique flag and if-not-exists flag both accept. -/
theorem createIndex_simple_extended_agree
    (indexName tableName colName : String) (unique ifNotExists : Bool)
    (hn : indexName ≠ "") (ht : tableName ≠ "") :
    CreateIndexSQL indexName tableName [colName] unique ifNotExists =
      CreateIndexWithOptionsSQL ⟨indexName, tableName, [⟨colName, ""⟩], unique, ifNotExists, ""⟩ := by
  cases unique <;> cases ifNotExists <;>
    (simp [CreateIndexSQL, CreateIndexWithOptionsSQL, hn, ht, goJoin, String.append_assoc];
      try rfl)

/-- C9 witness: both builders on a concrete unique single-column index. -/
theorem createIndex_simple_extended_agree_witness :
    CreateIndexSQL "idx_name" "users" ["name"] true true =
      CreateIndexWithOptionsSQL ⟨"idx_name", "users", [⟨"name", ""⟩], true, true, ""⟩ :=
  createIndex_simple_extended_agree "idx_name" "users" "name" true true
    (by decide) (by decide)

/-- The slug is non-empty, at most 20 characters, and made only of
lowercase letters, digits and underscores. -/
theorem slugFromPurpose_spec (purpose : String) :
    1 ≤ (slugFromPurpose purpose).length ∧ (slugFromPurpose purpose).length ≤ 20 ∧
      (slugFromPurpose purpose).data.all isSlugChar = true := by
  unfold slugFromPurpose
  set F := String.mk
    ((goReplaceAllChar (goReplaceAllChar (goToLower purpose) ' ' '_') '-' '_').data.filter
      isSlugChar) with hF
  have hFchars : ∀ c ∈ F.data, isSlugChar c = true := by
    intro c hc
    rw [hF] at hc
    exact (List.mem_filter.mp hc).2
  dsimp only
  by_cases hempty : F = ""
  · rw [if_pos hempty]
    have h20 : ¬(("database" : String).length > 20) := by decide
    rw [if_neg h20]
    exact ⟨by decide, by decide, by decide⟩
  · rw [if_neg hempty]
    have hne : F.data.length ≠ 0 := by
      intro h0
      exact hempty (String.ext (List.length_eq_zero.mp h0))
    have hl : F.length = F.data.length := rfl
    by_cases hlen : F.length > 20
    · rw [if_pos hlen]
      have hlen' : F.data.length > 20 := by omega
      refine ⟨?_, ?_, ?_⟩
      · show 1 ≤ (F.data.take 20).length
        rw [List.length_take, Nat.min_eq_left hlen'.le]
        decide
      · show (F.data.take 20).length ≤ 20
        rw [List.length_take, Nat.min_eq_left hlen'.le]
      · show (F.data.take 20).all isSlugChar = true
        simp only [List.all_eq_true]
        intro c hc
        exact hFchars c (List.take_subset 20 F.data hc)
    · rw [if_neg hlen]
      refine ⟨by omega, by omega, ?_⟩
      simp only [List.all_eq_true]
      exact hFchars

/-- C10: for every purpose string and timestamp the generated filename is
a non-empty slug of at most 20 characters drawn from lowercase letters,
digits and underscores, followed by an underscore, a numeric suffix below
10000, and the .db extension. -/
theorem generateFilename_wellformed (now : Nat) (purpose : String) :
    ∃ base,
      generateFilenameFromPurpose now purpose =
        base ++ "_" ++ toString (now % 10000) ++ ".db"
      ∧ 1 ≤ base.length ∧ base.length ≤ 20
      ∧ base.data.all isSlugChar = true
      ∧ now % 10000 < 10000 :=
  ⟨slugFromPurpose purpose, rfl, (slugFromPurpose_spec purpose).1,
    (slugFromPurpose_spec purpose).2.1, (slugFromPurpose_spec purpose).2.2,
    Nat.mod_lt _ (by decide)⟩

end MCPSqlite
